import Mathlib

/-!
Shallow embedding of the `control` browser-control library (Go) and proofs
about its behaviour.  The embedding follows the three source files:

* `transport/observe/observer.go` — the EventBus (`Observable`);
* `browser.go` — the `BrowserContext` target orchestration;
* the element-handle file (`element`/`renew`/`Click`/… of package `witness`).

Remote calls are modelled by passing their outcomes in explicitly: a Go call
returning `(*devtool.RemoteObject, error)` becomes a value of type
`Option RemoteObject × Option Err` (Go `nil` ↦ `none`).  Stateful methods
become functions from the relevant state (plus the remote outcomes) to the
new state and result.
-/

set_option autoImplicit false

namespace Control

/-- Errors of the library.  The named constructors are the error values the
source compares against or constructs; `other` stands for the remaining
arbitrary Go errors. -/
inductive Err where
  | staleElementReference
  | noSuchElement
  | elementInvisible
  | elementMissClick
  | cannotFindContext
  | sessionClosed
  | detachedFromTarget
  | invalidElementSelect
  | invalidElementOption
  | elementNotFocusable
  | invalidString
  | invalidElementFrame
  | deadlineExceeded
  | other (s : String)
  deriving DecidableEq, Repr

/-- The fields of `devtool.RemoteObject` the embedded code inspects.
`boolValue` is the boolean reading of the object's value, what the Go code
obtains with `.Bool()`. -/
structure RemoteObject where
  objectID : String
  description : String
  subtype : String
  boolValue : Bool
  deriving DecidableEq, Repr

/-- Result of running a fragment of Go code: a normal value, or a
nil-pointer dereference (a Go runtime panic from using a `nil`
`*RemoteObject`). -/
inductive ExecResult (α : Type) where
  | ok (a : α)
  | nilDeref
  deriving DecidableEq, Repr

/-! ### EventBus (`transport/observe/observer.go`) -/

/-- The notification payload (`observe.Value`). -/
structure Value where
  method : String
  params : List Nat
  deriving DecidableEq, Repr

/-- A registered observer: its stable id (used only for removal) and its
event-name filter (`Observer.Event()`).  The delivery callback is modelled
by recording, in `Notify`, which observers are invoked with which value. -/
structure Observer where
  id : String
  event : String
  deriving DecidableEq, Repr

/-- The delivery condition of `Observable.Notify`:
`e.Event() == "*" || event == "" || e.Event() == event`.  The Go source also
conjoins `e.Notify != nil`, but `e.Notify` is a method value of a non-nil
interface and is therefore never nil. -/
def notifyMatches (event : String) (o : Observer) : Bool :=
  o.event == "*" || event == "" || o.event == event

/-- `Observable.Notify`: iterates the observer list in order and invokes the
callback of every matching observer with `val`.  The result is the list of
(observer, delivered value) invocations, in invocation order. -/
def Notify (observers : List Observer) (event : String) (val : Value) :
    List (Observer × Value) :=
  (observers.filter (notifyMatches event)).map (fun o => (o, val))

/-- `Observable.Register`: appends the observer. -/
def Register (observers : List Observer) (val : Observer) : List Observer :=
  observers ++ [val]

/-- `Observable.Unregister`: finds the first entry with a matching id, moves
the last entry into its slot and truncates the list by one (swap-with-last
removal), exactly as the Go loop does. -/
def Unregister (observers : List Observer) (val : Observer) : List Observer :=
  match observers.findIdx? (fun e => e.id == val.id) with
  | none => observers
  | some n =>
      match observers.getLast? with
      | none => observers
      | some last => (observers.set n last).dropLast

/-- An operation on the bus, for reasoning about operation sequences. -/
inductive BusOp where
  | register (o : Observer)
  | unregister (o : Observer)
  deriving DecidableEq, Repr

/-- Applies one bus operation to the observer list. -/
def applyOp (observers : List Observer) : BusOp → List Observer
  | .register o => Register observers o
  | .unregister o => Unregister observers o

/-- Runs a sequence of Register/Unregister operations from the empty bus. -/
def runOps (ops : List BusOp) : List Observer :=
  ops.foldl applyOp []

/-- Modelled from the spec's words, for comparison with the source's
swap-with-last `Unregister`: removal of the first entry whose identity
matches, preserving the order of the remaining entries. -/
def unregisterPreserving (observers : List Observer) (val : Observer) :
    List Observer :=
  match observers.findIdx? (fun e => e.id == val.id) with
  | none => observers
  | some n => observers.eraseIdx n

/-- Applies one bus operation using the order-preserving removal. -/
def applyOpPreserving (observers : List Observer) : BusOp → List Observer
  | .register o => Register observers o
  | .unregister o => unregisterPreserving observers o

/-- Runs a sequence of operations with order-preserving removal: the result
lists the currently-registered observers in registration order. -/
def runOpsPreserving (ops : List BusOp) : List Observer :=
  ops.foldl applyOpPreserving []

/-! ### Element handles: the `renew` re-validation and `call` -/

/-- The per-handle state `renew` reads and writes: the remote object id, the
`detached` flag (`int64` 0/1 in Go, read and written atomically) and whether
the handle has a parent (`parent == nil` distinguishes the document root). -/
structure Handle where
  id : String
  detached : Bool
  hasParent : Bool
  deriving DecidableEq, Repr

/-- What a run of `renew` produced: the updated handle, the returned Go error
(`none` = nil), how many `session.evaluate("document", …)` calls it issued,
and whether it emitted the fatal-level "todo: renew element is not
implemented yet" log line. -/
structure RenewOut where
  handle : Handle
  err : Option Err
  evalCalls : Nat
  loggedFatalTodo : Bool
  deriving DecidableEq, Repr

/-- The `renew` method.  `evalRes` is the outcome of the single
`session.evaluate("document", session.getContextID(), false)` call the root
branch may issue.  Source behaviour:

* not detached: return nil untouched;
* detached and no parent (document root): evaluate a fresh document; on
  error return `ErrStaleElementReference`, otherwise adopt the new object id,
  clear the detached flag and return nil;
* detached with a parent: log "todo: renew element is not implemented yet"
  at fatal level and return nil (no stale error, no healing). -/
def renew (h : Handle) (evalRes : Except Err RemoteObject) : RenewOut :=
  if h.detached = false then ⟨h, none, 0, false⟩
  else if h.hasParent = false then
    match evalRes with
    | .error _ => ⟨h, some .staleElementReference, 1, false⟩
    | .ok ro => ⟨{ h with id := ro.objectID, detached := false }, none, 1, false⟩
  else ⟨h, none, 0, true⟩

/-- The `element.call` helper: runs `renew` first and, when it reports no
error, forwards to `session.callFunctionOn` whose outcome is `cfoRes`.
Returns the Go pair together with the renew outcome (handle state and
bookkeeping). -/
def elemCall (h : Handle) (evalRes : Except Err RemoteObject)
    (cfoRes : Option RemoteObject × Option Err) :
    (Option RemoteObject × Option Err) × RenewOut :=
  let r := renew h evalRes
  match r.err with
  | some e => ((none, some e), r)
  | none => (cfoRes, r)

/-! ### Click -/

/-- The remote outcomes a `Click` run consumes, in source order: the error of
`call(atom.ScrollIntoView)`, of `clickablePoint` (the
`getContentQuads` call), of `call(atom.PreventMissClick)`, and the Go pair
returned by the post-click guard query `call(atom.IsClickHit)`. -/
structure ClickEnv where
  scrollErr : Option Err
  pointErr : Option Err
  guardInjectErr : Option Err
  hitRes : Option RemoteObject × Option Err
  deriving DecidableEq, Repr

/-- The `Click` method.  The three dispatched mouse events return nothing and
are omitted.  The final classification embeds
`(err == nil && hit.Bool()) || err == ErrCannotFindContext || err == ErrSessionClosed`;
Go's `&&` short-circuits, so `hit.Bool()` (a nil dereference when `hit` is
nil) is evaluated only when `err == nil`. -/
def Click (env : ClickEnv) : ExecResult (Option Err) :=
  match env.scrollErr with
  | some e => .ok (some e)
  | none =>
  match env.pointErr with
  | some e => .ok (some e)
  | none =>
  match env.guardInjectErr with
  | some e => .ok (some e)
  | none =>
    let (hit, err) := env.hitRes
    if err = none then
      match hit with
      | none => .nilDeref
      | some ro =>
        if ro.boolValue then .ok none else .ok (some .elementMissClick)
    else if err = some .cannotFindContext ∨ err = some .sessionClosed then
      .ok none
    else .ok (some .elementMissClick)

/-! ### BrowserContext (`browser.go`) -/

/-- `BrowserContext.CloseTarget`: issues the close call (outcome `closeErr`)
and swallows exactly `ErrDetachedFromTarget`, returning every other outcome
unchanged. -/
def CloseTarget (closeErr : Option Err) : Option Err :=
  if closeErr = some Err.detachedFromTarget then none else closeErr

/-- Modelled from the spec: the constant `Blank` is declared elsewhere in the
package (not among the sources here); per the spec it is the designated safe,
non-empty blank-page URL. -/
def Blank : String := "about:blank"

/-- A remote call `CreatePageTarget` issues, with its argument. -/
inductive TargetStep where
  | createCall (url : String)
  | attachCall (tid : String)
  deriving DecidableEq, Repr

/-- `BrowserContext.CreatePageTarget`: rewrites an empty URL to `Blank`
(headless chrome crashes on an empty URL), issues `target.CreateTarget` with
outcome `createRes` (a created target id, or an error), and on success
attaches via `AttachPageTarget` on the returned target id.  The result is the
list of remote calls issued, in order, with the create error if any. -/
def CreatePageTarget (url : String) (createRes : Except Err String) :
    List TargetStep × Option Err :=
  let u := if url = "" then Blank else url
  match createRes with
  | .error e => ([TargetStep.createCall u], some e)
  | .ok tid => ([TargetStep.createCall u, TargetStep.attachCall tid], none)

/-! ### Expect and the retry primitive -/

/-- How a call to `Expect` terminates: it either returns an element, or
raises a fatal, non-returnable failure (the Go `panic(err)`).  The Go
signature returns only an `Element`, so there is no ordinary error-value
outcome. -/
inductive Outcome (α : Type) where
  | ret (a : α)
  | fatal (e : Err)
  deriving DecidableEq, Repr

/-- Modelled from the spec: `Session.Ticker` (the RetryLoop) is not among
the sources here; per the spec it repeatedly attempts the given function
until success or its deadline.  The attempts are modelled as the finite list
of outcomes the polled function produces before the deadline: the first
success is returned; if every attempt before the deadline fails, the
deadline expiry yields an error. -/
def Ticker : List (Except Err Handle) → Except Err Handle
  | [] => .error .deadlineExceeded
  | .ok a :: _ => .ok a
  | .error _ :: rest => Ticker rest

/-- The `Expect` method: runs the retried Seek/IsVisible attempt through the
Ticker; on any error from the Ticker it panics (`Outcome.fatal`), otherwise
it returns the resolved element. -/
def Expect (attempts : List (Except Err Handle)) : Outcome Handle :=
  match Ticker attempts with
  | .error e => .fatal e
  | .ok el => .ret el

/-! ### Select, IsChecked, findElement(s), SeekAll -/

/-- Reading `ro.Bool()` off a possibly-nil `*devtool.RemoteObject`: on a nil
pointer the method body's field access faults (Go runtime panic). -/
def inspectBool : Option RemoteObject → ExecResult Bool
  | none => .nilDeref
  | some ro => .ok ro.boolValue

/-- The remote outcomes a `Select` run consumes, in source order: the node
description from `getNode` (its `NodeName` on success), the pair returned by
`call(atom.SelectHasOptions, values)`, and the pair returned by
`call(atom.Select, values)`. -/
structure SelectEnv where
  nodeRes : Except Err String
  hasRes : Option RemoteObject × Option Err
  selRes : Option RemoteObject × Option Err
  deriving Repr

/-- The `Select` method.  Source order: `getNode` (error returned), the
`"SELECT"` tag check, then `has, err := e.call(atom.SelectHasOptions, …)`
followed immediately by `if !has.Bool()` — the error of that call is not
inspected before `has.Bool()`, so a failed call (nil `has`) reaches the nil
dereference.  Finally the `atom.Select` call's error is returned. -/
def Select (env : SelectEnv) : ExecResult (Option Err) :=
  match env.nodeRes with
  | .error e => .ok (some e)
  | .ok nodeName =>
    if nodeName ≠ "SELECT" then .ok (some .invalidElementSelect)
    else
      match inspectBool env.hasRes.1 with
      | .nilDeref => .nilDeref
      | .ok b =>
        if b = false then .ok (some .invalidElementOption)
        else .ok env.selRes.2

/-- The `IsChecked` method: `checked, err := e.call(atom.IsChecked)` and then
`return checked.Bool(), err` — `checked.Bool()` is evaluated no matter what
`err` is, so a failed call (nil `checked`) is a nil dereference. -/
def IsChecked (callRes : Option RemoteObject × Option Err) :
    ExecResult (Bool × Option Err) :=
  match inspectBool callRes.1 with
  | .nilDeref => .nilDeref
  | .ok b => .ok (b, callRes.2)

/-- One property descriptor from `session.getProperties`: its `Enumerable`
flag and the object id and description of its value. -/
structure PropDesc where
  enumerable : Bool
  valueID : String
  valueDesc : String
  deriving DecidableEq, Repr

/-- The remote outcomes a `findElements` run consumes: the error of `renew`,
the pair returned by `call(atom.QueryAll, selector)`, and the descriptor
list from `getProperties` (whose error the source ignores). -/
structure FindAllEnv where
  renewErr : Option Err
  queryRes : Option RemoteObject × Option Err
  props : List PropDesc
  deriving DecidableEq, Repr

/-- The children `findElements` builds: for each enumerable descriptor, a new
element with the descriptor value's object id and description. -/
def enumChildren (props : List PropDesc) : List (String × String) :=
  (props.filter (fun d => d.enumerable)).map (fun d => (d.valueID, d.valueDesc))

/-- The `findElements` method.  After `renew` and the query-all call (and its
error check), the source tests `ro == nil || ro.Description == "NodeList(0)"`
and inside that branch calls `e.session.releaseObject(ro.ObjectID)` — a nil
dereference when the branch was entered because `ro` is nil — then returns
`ErrNoSuchElement`.  Otherwise the enumerable properties become the child
elements. -/
def findElements (env : FindAllEnv) : ExecResult (Except Err (List (String × String))) :=
  match env.renewErr with
  | some e => .ok (.error e)
  | none =>
    match env.queryRes.2 with
    | some e => .ok (.error e)
    | none =>
      match env.queryRes.1 with
      | none => .nilDeref
      | some ro =>
        if ro.description = "NodeList(0)" then .ok (.error .noSuchElement)
        else .ok (.ok (enumChildren env.props))

/-- The `SeekAll` method: degrades any error from `findElements` to the empty
list; a runtime panic inside `findElements` still propagates. -/
def SeekAll (env : FindAllEnv) : ExecResult (List (String × String)) :=
  match findElements env with
  | .nilDeref => .nilDeref
  | .ok (.error _) => .ok []
  | .ok (.ok els) => .ok els

/-- The remote outcomes a `findElement` run consumes: the error of `renew`
and the pair returned by `call(atom.Query, selector)`. -/
structure FindEnv where
  renewErr : Option Err
  queryRes : Option RemoteObject × Option Err
  deriving DecidableEq, Repr

/-- The `findElement` method (the body of `Seek`): after `renew` and the
query call's error check, an object of subtype "null" is the no-such-element
sentinel; otherwise a new child element is built from the object id and
description. -/
def findElement (env : FindEnv) : ExecResult (Except Err (String × String)) :=
  match env.renewErr with
  | some e => .ok (.error e)
  | none =>
    match env.queryRes.2 with
    | some e => .ok (.error e)
    | none =>
      match env.queryRes.1 with
      | none => .nilDeref
      | some ro =>
        if ro.subtype = "null" then .ok (.error .noSuchElement)
        else .ok (.ok (ro.objectID, ro.description))

/-! ### The element tree, `detach` and `Release` -/

mutual
/-- An element with its owned subtree of children (`element.childs`); the
node carries the object id and the detached flag. -/
inductive ElemTree where
  | node (id : String) (detached : Bool) (childs : ElemForest)

/-- The list of children of an element. -/
inductive ElemForest where
  | nil
  | cons (t : ElemTree) (ts : ElemForest)
end

mutual
/-- The `detach` method: stores 1 into the node's detached flag and recurses
into every child. -/
def detach : ElemTree → ElemTree
  | .node i _ cs => .node i true (detachF cs)

/-- `detach` over a child list. -/
def detachF : ElemForest → ElemForest
  | .nil => .nil
  | .cons t ts => .cons (detach t) (detachF ts)
end

/-- The `Release` method: `defer e.detach()` runs unconditionally, and the
error of `session.releaseObject(e.ID)` (outcome `releaseErr`) is returned as
is.  The result is the element tree after the deferred detach, paired with
the returned error. -/
def Release (t : ElemTree) (releaseErr : Option Err) : ElemTree × Option Err :=
  (detach t, releaseErr)

mutual
/-- Every node of the tree has its detached flag set. -/
def allDetached : ElemTree → Bool
  | .node _ d cs => d && allDetachedF cs

/-- `allDetached` over a child list. -/
def allDetachedF : ElemForest → Bool
  | .nil => true
  | .cons t ts => allDetached t && allDetachedF ts
end

mutual
/-- The object ids of the tree, in preorder (detachment must not change
which elements the tree holds). -/
def ids : ElemTree → List String
  | .node i _ cs => i :: idsF cs

/-- `ids` over a child list. -/
def idsF : ElemForest → List String
  | .nil => []
  | .cons t ts => ids t ++ idsF ts
end

/-! ## Theorems -/

/-- C3: for every registered observer with filter f and every Notify call
with event name e and value v, the observer's callback is invoked with v if
and only if f = "*" or e = "" or f = e. -/
theorem notify_delivery_filter (observers : List Observer) (o : Observer)
    (e : String) (v : Value) :
    (o, v) ∈ Notify observers e v ↔
      o ∈ observers ∧ (o.event = "*" ∨ e = "" ∨ o.event = e) := by
  simp [Notify, notifyMatches, List.mem_map, List.mem_filter]
  intro _
  tauto

/-- C3 witness: a concrete wildcard observer is delivered a concrete value. -/
theorem notify_delivery_filter_witness :
    (⟨"w", "*"⟩, ⟨"m", []⟩) ∈ Notify [⟨"w", "*"⟩] "evt" ⟨"m", []⟩ :=
  (notify_delivery_filter [⟨"w", "*"⟩] ⟨"w", "*"⟩ "evt" ⟨"m", []⟩).mpr
    ⟨List.mem_singleton.mpr rfl, Or.inl rfl⟩

/-- C6 counterexample: register a, b, c and then unregister a; swap-with-last
removal leaves the list as [c, b], so Notify delivers c before b, while the
registration order of the remaining observers is [b, c]. -/
theorem notify_order_counterexample :
    Notify (runOps [BusOp.register ⟨"a", "*"⟩, BusOp.register ⟨"b", "*"⟩,
        BusOp.register ⟨"c", "*"⟩, BusOp.unregister ⟨"a", "*"⟩]) "x" ⟨"m", []⟩
      ≠ Notify (runOpsPreserving [BusOp.register ⟨"a", "*"⟩,
        BusOp.register ⟨"b", "*"⟩, BusOp.register ⟨"c", "*"⟩,
        BusOp.unregister ⟨"a", "*"⟩]) "x" ⟨"m", []⟩ := by
  decide

/-- Helper: folding register operations over the bus appends in order. -/
theorem runOps_registers_append (os : List Observer) (acc : List Observer) :
    (os.map BusOp.register).foldl applyOp acc = acc ++ os := by
  induction os generalizing acc with
  | nil => simp
  | cons o os ih => simp [applyOp, Register, ih]

/-- C6 (amended): Notify delivers synchronously, one observer after the
other, in the order of the internal observer list; Register appends, so for
every sequence of Register operations (no intervening Unregister) the
delivery to the matching observers is in registration order.  Unregister's
swap-with-last removal can reorder the list, so after unregistering a
non-last observer the delivery order is that permuted list order, not
registration order. -/
theorem notify_registration_order_without_unregister (os : List Observer)
    (e : String) (v : Value) :
    runOps (os.map BusOp.register) = os ∧
    Notify (runOps (os.map BusOp.register)) e v
      = (os.filter (notifyMatches e)).map (fun o => (o, v)) := by
  have h : runOps (os.map BusOp.register) = os := by
    simpa using runOps_registers_append os []
  exact ⟨h, by rw [Notify, h]⟩

mutual
/-- Helper: after `detach`, every node of the subtree is detached. -/
theorem allDetached_detach : ∀ t, allDetached (detach t) = true
  | .node i d cs => by
      simp [detach, allDetached, allDetachedF_detachF cs]

/-- Helper: `allDetached_detach` over a child list. -/
theorem allDetachedF_detachF : ∀ ts, allDetachedF (detachF ts) = true
  | .nil => rfl
  | .cons t ts => by
      simp [detachF, allDetachedF, allDetached_detach t, allDetachedF_detachF ts]
end

mutual
/-- Helper: `detach` changes no object id and drops no node. -/
theorem ids_detach : ∀ t, ids (detach t) = ids t
  | .node i d cs => by
      simp [detach, ids, idsF_detachF cs]

/-- Helper: `ids_detach` over a child list. -/
theorem idsF_detachF : ∀ ts, idsF (detachF ts) = idsF ts
  | .nil => rfl
  | .cons t ts => by
      simp [detachF, idsF, ids_detach t, idsF_detachF ts]
end

/-- C10: for every handle, Release marks the handle and its whole subtree of
descendants detached, for every outcome of the remote releaseObject call
(including failure), and returns that remote call's error unchanged; the
tree keeps exactly its nodes (ids unchanged). -/
theorem release_detaches_subtree_and_returns_error (t : ElemTree)
    (releaseErr : Option Err) :
    allDetached (Release t releaseErr).1 = true ∧
    (Release t releaseErr).2 = releaseErr ∧
    ids (Release t releaseErr).1 = ids t :=
  ⟨allDetached_detach t, rfl, ids_detach t⟩

/-- C1: code behaviour at the failing input.  On a detached handle with a
parent, `renew` does not return the stale-reference error: it logs the
fatal-level "todo: renew element is not implemented yet" line and returns
nil without healing, so `call` proceeds to `callFunctionOn` against the
stale object id. -/
theorem renew_detached_child_proceeds :
    renew ⟨"stale", true, true⟩ (Except.error Err.sessionClosed)
        = ⟨⟨"stale", true, true⟩, none, 0, true⟩ ∧
    elemCall ⟨"stale", true, true⟩ (Except.error Err.sessionClosed)
        (some ⟨"res", "d", "", true⟩, none)
        = ((some ⟨"res", "d", "", true⟩, none), ⟨⟨"stale", true, true⟩, none, 0, true⟩) :=
  ⟨rfl, rfl⟩

/-- C4: for a document-root handle (no parent) that is marked detached, the
next `renew` issues exactly one re-resolution (`evaluate`) of the root; if
that evaluation succeeds the flag is clear afterward, the handle carries the
freshly acquired object identifier and no error is returned, so the
operation proceeds against it and a further `renew` issues no additional
evaluation; if the evaluation fails, the stale-reference error is returned
and the operation does not proceed. -/
theorem renew_root_selfheal (h : Handle) (res : Except Err RemoteObject)
    (hd : h.detached = true) (hp : h.hasParent = false) :
    (renew h res).evalCalls = 1 ∧
    (∀ ro, res = Except.ok ro →
        renew h res = ⟨{ h with id := ro.objectID, detached := false }, none, 1, false⟩) ∧
    (∀ er, res = Except.error er →
        renew h res = ⟨h, some Err.staleElementReference, 1, false⟩) ∧
    (∀ ro res2, res = Except.ok ro →
        renew (renew h res).handle res2 = ⟨(renew h res).handle, none, 0, false⟩) := by
  cases res with
  | ok ro0 =>
      refine ⟨?_, ?_, ?_, ?_⟩
      · simp [renew, hd, hp]
      · intro ro hro
        injection hro with h2
        subst h2
        simp [renew, hd, hp]
      · intro er h2
        exact Except.noConfusion h2
      · intro ro2 res2 h2
        simp [renew, hd, hp]
  | error er =>
      refine ⟨?_, ?_, ?_, ?_⟩
      · simp [renew, hd, hp]
      · intro ro h2
        exact Except.noConfusion h2
      · intro er2 hre
        injection hre with h2
        subst h2
        simp [renew, hd, hp]
      · intro ro2 res2 h2
        exact Except.noConfusion h2

/-- C4 witness: a detached root handle healed by a successful document
evaluation. -/
theorem renew_root_selfheal_witness :
    renew ⟨"doc", true, false⟩ (Except.ok ⟨"newdoc", "", "", false⟩)
      = ⟨⟨"newdoc", false, false⟩, none, 1, false⟩ :=
  (renew_root_selfheal ⟨"doc", true, false⟩ (Except.ok ⟨"newdoc", "", "", false⟩)
      rfl rfl).2.1 ⟨"newdoc", "", "", false⟩ rfl

/-- C2: for every Click invocation that reaches the post-click guard query
(the earlier steps produced no error; the guard call is well-formed in that
a nil error comes with a non-nil result), the result is success iff the
guard query succeeds and reports a hit, or it fails with exactly the
context-destroyed or the session-closed error; every other outcome is the
missed-click error.  This reclassification is local to Click: CloseTarget
and findElement pass those two errors through unchanged. -/
theorem click_guard_classification (env : ClickEnv)
    (h1 : env.scrollErr = none) (h2 : env.pointErr = none)
    (h3 : env.guardInjectErr = none)
    (hw : env.hitRes.2 = none → (env.hitRes.1).isSome = true) :
    (Click env = .ok none ↔
      (env.hitRes.2 = none ∧ ∃ ro, env.hitRes.1 = some ro ∧ ro.boolValue = true)
        ∨ env.hitRes.2 = some Err.cannotFindContext
        ∨ env.hitRes.2 = some Err.sessionClosed) ∧
    (Click env ≠ .ok none → Click env = .ok (some Err.elementMissClick)) ∧
    CloseTarget (some Err.cannotFindContext) = some Err.cannotFindContext ∧
    CloseTarget (some Err.sessionClosed) = some Err.sessionClosed ∧
    findElement ⟨none, (none, some Err.cannotFindContext)⟩
        = .ok (.error Err.cannotFindContext) ∧
    findElement ⟨none, (none, some Err.sessionClosed)⟩
        = .ok (.error Err.sessionClosed) := by
  obtain ⟨s, p, g, hit, err⟩ := env
  simp only at h1 h2 h3 hw ⊢
  subst h1 h2 h3
  refine ⟨?_, ?_, rfl, rfl, rfl, rfl⟩
  · cases err with
    | none =>
        cases hit with
        | none => simp at hw
        | some ro =>
            cases hro : ro.boolValue <;> simp [Click, hro]
    | some e =>
        by_cases he : e = Err.cannotFindContext ∨ e = Err.sessionClosed
        · rcases he with rfl | rfl <;> simp [Click]
        · push_neg at he
          simp [Click, he.1, he.2]
  · cases err with
    | none =>
        cases hit with
        | none => simp at hw
        | some ro => cases hro : ro.boolValue <;> simp [Click, hro]
    | some e =>
        by_cases he1 : e = Err.cannotFindContext
        · subst he1; simp [Click]
        · by_cases he2 : e = Err.sessionClosed
          · subst he2; simp [Click]
          · simp [Click, he1, he2]

/-- C2 witness: a Click whose guard query succeeds and reports a hit is a
success. -/
theorem click_guard_classification_witness :
    Click ⟨none, none, none, (some ⟨"o", "", "", true⟩, none)⟩ = .ok none :=
  (click_guard_classification ⟨none, none, none, (some ⟨"o", "", "", true⟩, none)⟩
      rfl rfl rfl (fun _ => rfl)).1.mpr
    (Or.inl ⟨rfl, ⟨"o", "", "", true⟩, rfl, rfl⟩)

/-- C5: CloseTarget returns success when the close call succeeds and when it
fails with exactly the detached-from-target error; every other error is
returned to the caller unchanged. -/
theorem close_target_swallows_detached :
    CloseTarget none = none ∧
    CloseTarget (some Err.detachedFromTarget) = none ∧
    ∀ e, e ≠ Err.detachedFromTarget → CloseTarget (some e) = some e := by
  refine ⟨rfl, rfl, fun e he => ?_⟩
  simp [CloseTarget, he]

/-- C5 witness: a session-closed error from the close call is surfaced
unchanged. -/
theorem close_target_swallows_detached_witness :
    CloseTarget (some Err.sessionClosed) = some Err.sessionClosed :=
  close_target_swallows_detached.2.2 Err.sessionClosed (by decide)

/-- Helper: the Ticker yields an error exactly when no attempt before the
deadline succeeded. -/
theorem ticker_error_iff (attempts : List (Except Err Handle)) :
    (∃ e, Ticker attempts = .error e) ↔
      ∀ a ∈ attempts, ∀ el, a ≠ Except.ok el := by
  induction attempts with
  | nil => simp [Ticker]
  | cons a rest ih =>
      cases a with
      | ok el =>
          simp only [Ticker]
          constructor
          · rintro ⟨e, he⟩
            exact Except.noConfusion he
          · intro hall
            exact absurd rfl (hall (Except.ok el) (List.mem_cons_self _ _) el)
      | error e =>
          simp only [Ticker]
          rw [ih]
          constructor
          · intro hall b hb el
            rcases List.mem_cons.mp hb with rfl | hb2
            · exact fun h => Except.noConfusion h
            · exact hall b hb2 el
          · intro hall b hb el
            exact hall b (List.mem_cons_of_mem _ hb) el

/-- C7: whenever the retried attempt inside Expect does not succeed before
the retry primitive's deadline, Expect terminates with the fatal,
non-returnable outcome (the Outcome type of Expect has no ordinary
error-value constructor); when an attempt succeeds, Expect returns the
resolved element without raising. -/
theorem expect_fatal_on_deadline (attempts : List (Except Err Handle)) :
    ((∃ e, Expect attempts = .fatal e) ↔
        ∀ a ∈ attempts, ∀ el, a ≠ Except.ok el) ∧
    (∀ el, Expect attempts = .ret el ↔ Ticker attempts = .ok el) := by
  constructor
  · rw [← ticker_error_iff]
    cases h : Ticker attempts <;> simp [Expect, h]
  · intro el
    cases h : Ticker attempts <;> simp [Expect, h]

/-- C7 witness: with only failing attempts Expect is fatal; with a
successful attempt it returns the element. -/
theorem expect_fatal_on_deadline_witness :
    (∃ e, Expect [Except.error Err.noSuchElement] = .fatal e) ∧
    Expect [Except.ok ⟨"el", false, true⟩] = .ret ⟨"el", false, true⟩ := by
  constructor
  · refine (expect_fatal_on_deadline [Except.error Err.noSuchElement]).1.mpr ?_
    intro a ha el
    rw [List.mem_singleton] at ha
    subst ha
    exact fun h => Except.noConfusion h
  · exact ((expect_fatal_on_deadline [Except.ok ⟨"el", false, true⟩]).2
      ⟨"el", false, true⟩).mpr rfl

/-- C8: CreatePageTarget never issues a create-target call with an empty
URL: an empty url argument is rewritten to the designated non-empty Blank
URL, a non-empty url is passed through unchanged, and on successful creation
the returned target id is attached. -/
theorem create_page_target_url_rewrite (url : String)
    (createRes : Except Err String) :
    (∀ u, TargetStep.createCall u ∈ (CreatePageTarget url createRes).1 → u ≠ "") ∧
    (url ≠ "" → TargetStep.createCall url ∈ (CreatePageTarget url createRes).1) ∧
    (url = "" → TargetStep.createCall Blank ∈ (CreatePageTarget url createRes).1) ∧
    (∀ tid, createRes = Except.ok tid →
        TargetStep.attachCall tid ∈ (CreatePageTarget url createRes).1) := by
  have hblank : Blank ≠ "" := by decide
  by_cases hu : url = "" <;>
    cases createRes <;>
      simp_all [CreatePageTarget]

/-- C8 witness: an empty url is rewritten to Blank and the created target is
attached; a non-empty url is passed through. -/
theorem create_page_target_url_rewrite_witness :
    TargetStep.createCall Blank ∈ (CreatePageTarget "" (Except.ok "t1")).1 ∧
    TargetStep.attachCall "t1" ∈ (CreatePageTarget "" (Except.ok "t1")).1 ∧
    TargetStep.createCall "http://x" ∈
      (CreatePageTarget "http://x" (Except.ok "t2")).1 :=
  ⟨(create_page_target_url_rewrite "" (Except.ok "t1")).2.2.1 rfl,
   (create_page_target_url_rewrite "" (Except.ok "t1")).2.2.2 "t1" rfl,
   (create_page_target_url_rewrite "http://x" (Except.ok "t2")).2.1 (by decide)⟩

/-- C9: code behaviour at the failing inputs.  When the has-options call of
Select fails (nil result with an error), Select reaches `has.Bool()` and
dereferences nil; IsChecked evaluates `checked.Bool()` regardless of the
call's error; findElements, on a nil query-all result, enters the sentinel
branch and dereferences `ro.ObjectID` on the nil object, and SeekAll
propagates that fault instead of degrading to an empty sequence. -/
theorem select_ischecked_findelements_nil_deref :
    Select ⟨Except.ok "SELECT", (none, some Err.sessionClosed), (none, none)⟩
        = ExecResult.nilDeref ∧
    IsChecked (none, some Err.sessionClosed) = ExecResult.nilDeref ∧
    findElements ⟨none, (none, none), []⟩ = ExecResult.nilDeref ∧
    SeekAll ⟨none, (none, none), []⟩ = ExecResult.nilDeref := by
  refine ⟨?_, rfl, rfl, rfl⟩
  simp [Select, inspectBool]

end Control
